import Mathlib

/-!
Verification of the borneanforest/home storefront scripts.

The repository holds two browser scripts sharing one data model:
`src/js/shop.js` (the shopper page: catalog filtering, pagination, cart,
order-message link) and an admin script (catalog add/edit/delete, next-id
generation, image renaming, zip export).  This file gives a shallow
embedding of their pure logic: JavaScript strings are Lean `String`s
manipulated through their underlying `List Char`, JavaScript numbers that
hold integers are `Int` (or `Nat` where the source value is a count),
the mutable `state` objects become explicit state records, and each event
handler becomes a function from state to state.
-/

/-! ## String helpers (models of the JavaScript string methods used) -/

/-- Models `String.prototype.toLowerCase` (character-wise lower-casing). -/
def jsToLower (s : String) : String :=
  ⟨s.data.map Char.toLower⟩

/-- Models `hay.includes(needle)`: `needle` occurs contiguously in `hay`. -/
def jsIncludes (hay needle : String) : Bool :=
  decide (needle.data <:+: hay.data)

/-- Models `String.prototype.trim`: strip leading and trailing whitespace. -/
def jsTrim (s : String) : String :=
  ⟨((s.data.dropWhile Char.isWhitespace).reverse.dropWhile Char.isWhitespace).reverse⟩

/-- Models `s.slice(n)` for a non-negative index: drop the first `n` characters. -/
def jsSliceFrom (s : String) (n : Nat) : String :=
  ⟨s.data.drop n⟩

/-- Models the JavaScript truthiness test on a string: true iff non-empty. -/
def jsTruthy (s : String) : Bool :=
  s != ""

/-- Models `String(n).padStart(targetLength, padChar)` applied to a decimal
numeral: left-pad with `padChar` up to `targetLength` characters. -/
def padStart (s : String) (targetLength : Nat) (padChar : Char) : String :=
  ⟨List.replicate (targetLength - s.data.length) padChar ++ s.data⟩

/-- Models `parseInt` on the strings this program feeds it (a run of decimal
digits): parse the longest digit run at the front; `none` models the `NaN`
result when no leading digit exists. -/
def jsParseIntNat (s : String) : Option Nat :=
  let digits := s.data.takeWhile Char.isDigit
  if digits.isEmpty then none
  else some (digits.foldl (fun n c => 10 * n + (c.toNat - '0'.toNat)) 0)

/-- Models `.replace(/\s+/g, '_')`: each maximal whitespace run becomes one
underscore.  The boolean argument records whether the previous character was
whitespace (i.e. we are inside a run). -/
def collapseWhitespace : List Char → Bool → List Char
  | [], _ => []
  | c :: rest, prevWs =>
    if c.isWhitespace then
      (if prevWs then [] else ['_']) ++ collapseWhitespace rest true
    else
      c :: collapseWhitespace rest false

/-! ## Data model -/

/-- A catalog record, per the shape of `data/products.json`:
`{id, name, species, price, available, image, created_at}`.
`price` is modelled as `Int` (no claim depends on fractional arithmetic) and
`created_at` as a numeric timestamp, which is how the code compares it
(`new Date(b.created_at) - new Date(a.created_at)`). -/
structure Product where
  id : String
  name : String
  species : String
  price : Int
  available : Bool
  image : String
  created_at : Nat
deriving Repr, DecidableEq, Inhabited

/-! ## Shopper logic: `productManager` in `src/js/shop.js` -/

/-- `ITEMS_PER_PAGE` from the source. -/
def ITEMS_PER_PAGE : Nat := 4

/-- `MAX_VISIBLE_PAGES` from the source, used in `Int` page arithmetic. -/
def MAX_VISIBLE_PAGES : Int := 5

/-- `productManager.getFilteredProducts(keyword, showSoldOut)` with the
`state.products` it reads passed explicitly: keep the products one of whose
`id`, `name` or `species` contains the lower-cased keyword, and which are
available unless sold-out items are shown. -/
def getFilteredProducts (products : List Product) (keyword : String)
    (showSoldOut : Bool) : List Product :=
  let lowerKeyword := jsToLower keyword
  products.filter fun product =>
    let matchesKw := [product.id, product.name, product.species].any
      fun field => jsIncludes (jsToLower field) lowerKeyword
    matchesKw && (showSoldOut || product.available)

/-! ## Claim C1 -/

/-- The lower-cased keyword occurring as a substring of a lower-cased field,
stated at the `Prop` level, as the spec words it. -/
def keywordMatches (p : Product) (k : String) : Prop :=
  (jsToLower k).data <:+: (jsToLower p.id).data ∨
  (jsToLower k).data <:+: (jsToLower p.name).data ∨
  (jsToLower k).data <:+: (jsToLower p.species).data

lemma nil_isInfix {α : Type _} (l : List α) : [] <:+: l :=
  ⟨[], l, by simp⟩

lemma jsIncludes_eq_true_iff (hay needle : String) :
    jsIncludes hay needle = true ↔ needle.data <:+: hay.data := by
  simp [jsIncludes]

/-- C1: `getFilteredProducts` returns a subsequence of the catalog whose
members are exactly the products matching the lower-cased keyword in some
field and visible under the sold-out flag; with the empty keyword and the
flag set it returns the catalog unchanged. -/
theorem getFilteredProducts_spec (products : List Product) (k : String) (s : Bool) :
    (getFilteredProducts products k s).Sublist products ∧
    (∀ p : Product, p ∈ getFilteredProducts products k s ↔
      p ∈ products ∧ keywordMatches p k ∧ (p.available = true ∨ s = true)) ∧
    getFilteredProducts products "" true = products := by
  refine ⟨List.filter_sublist _, fun p => ?_, ?_⟩
  · rw [getFilteredProducts, List.mem_filter]
    simp only [List.any_cons, List.any_nil, Bool.or_false, Bool.and_eq_true,
      Bool.or_eq_true, jsIncludes_eq_true_iff, keywordMatches]
    tauto
  · rw [getFilteredProducts, List.filter_eq_self]
    intro p _
    simp only [List.any_cons, List.any_nil, Bool.or_false, Bool.and_eq_true,
      Bool.or_eq_true, jsIncludes_eq_true_iff]
    refine ⟨Or.inl ?_, Or.inl trivial⟩
    exact nil_isInfix _

/-! ## Pagination: `getPaginatedProducts` and `paginationManager` -/

/-- Models `Array.prototype.slice(start, stop)` including its clamping of the
two indices (negative indices count from the end). -/
def jsSlice {α : Type _} (l : List α) (start stop : Int) : List α :=
  let n : Int := l.length
  let s := if start < 0 then max (n + start) 0 else min start n
  let e := if stop < 0 then max (n + stop) 0 else min stop n
  (l.take e.toNat).drop s.toNat

/-- `productManager.getPaginatedProducts(products)` with the page it reads
from `state.currentPage` passed explicitly:
`products.slice((currentPage-1)*ITEMS_PER_PAGE, ... + ITEMS_PER_PAGE)`. -/
def getPaginatedProducts (products : List Product) (currentPage : Int) : List Product :=
  let start := (currentPage - 1) * (ITEMS_PER_PAGE : Int)
  jsSlice products start (start + (ITEMS_PER_PAGE : Int))

/-- `paginationManager.getTotalPages(totalItems)`, i.e.
`Math.ceil(totalItems / ITEMS_PER_PAGE)` on a natural count. -/
def getTotalPages (totalItems : Nat) : Nat :=
  (totalItems + (ITEMS_PER_PAGE - 1)) / ITEMS_PER_PAGE

/-! ## Claim C2 -/

lemma getPaginatedProducts_eq_drop_take (l : List Product) (i : Nat) :
    getPaginatedProducts l ((i : Int) + 1) = (l.drop (i * 4)).take 4 := by
  have h4 : (ITEMS_PER_PAGE : Int) = 4 := rfl
  rw [getPaginatedProducts]
  simp only [h4, jsSlice, add_sub_cancel_right]
  have hs : ¬ ((i : Int) * 4 < 0) := by omega
  have he : ¬ ((i : Int) * 4 + 4 < 0) := by omega
  rw [if_neg hs, if_neg he]
  rcases le_or_lt ((i : Int) * 4 + 4) (l.length : Int) with h | h
  · rw [min_eq_left h, min_eq_left (by omega)]
    have h1 : ((i : Int) * 4).toNat = i * 4 := by omega
    have h2 : ((i : Int) * 4 + 4).toNat = i * 4 + 4 := by omega
    rw [h1, h2, List.drop_take]
    congr 1
    omega
  · rw [min_eq_right (le_of_lt h)]
    have hlen : (l.length : Int).toNat = l.length := by omega
    rw [hlen, List.take_length]
    rcases le_or_lt ((i : Int) * 4) (l.length : Int) with h' | h'
    · rw [min_eq_left h']
      have h1 : ((i : Int) * 4).toNat = i * 4 := by omega
      rw [h1]
      rw [List.take_of_length_le (by simp [List.length_drop]; omega)]
    · rw [min_eq_right (le_of_lt h')]
      rw [hlen, List.drop_eq_nil_of_le (le_refl _)]
      rw [List.drop_eq_nil_of_le (by omega), List.take_nil]

lemma chunkFlatten {α : Type _} (k : Nat) :
    ∀ l : List α, l.length ≤ k →
      ((List.range ((l.length + 3) / 4)).map (fun i => (l.drop (i * 4)).take 4)).flatten = l := by
  induction k with
  | zero =>
    intro l h
    have : l = [] := List.eq_nil_of_length_eq_zero (by omega)
    subst this
    simp
  | succ k ih =>
    intro l h
    rcases eq_or_ne l [] with rfl | hne
    · simp
    · have hpos : 0 < l.length := List.length_pos.mpr hne
      have hq : (l.length + 3) / 4 = ((l.drop 4).length + 3) / 4 + 1 := by
        rw [List.length_drop]
        omega
      rw [hq, List.range_succ_eq_map, List.map_cons, List.flatten_cons,
        List.map_map]
      have hmap : ∀ i : Nat,
          ((fun i => (l.drop (i * 4)).take 4) ∘ Nat.succ) i
            = (fun i => ((l.drop 4).drop (i * 4)).take 4) i := by
        intro i
        simp only [Function.comp_apply, List.drop_drop]
        congr 2
        omega
      rw [List.map_congr_left (fun i _ => hmap i)]
      rw [ih (l.drop 4) (by rw [List.length_drop]; omega)]
      simp [List.take_append_drop 4 l]

lemma getTotalPages_eq_ceil (n : Nat) :
    (getTotalPages n : Int) = ⌈(n : ℚ) / 4⌉ := by
  have hdef : getTotalPages n = (n + 3) / 4 := rfl
  rw [hdef, eq_comm, Int.ceil_eq_iff]
  have h1 : n ≤ 4 * ((n + 3) / 4) := by omega
  have h2 : 4 * ((n + 3) / 4) ≤ n + 3 := by omega
  have hq1 : ((n : ℚ)) ≤ 4 * ((((n + 3) / 4 : ℕ) : ℤ) : ℚ) := by exact_mod_cast h1
  have hq2 : (4 : ℚ) * ((((n + 3) / 4 : ℕ) : ℤ) : ℚ) ≤ (n : ℚ) + 3 := by exact_mod_cast h2
  constructor
  · rw [sub_lt_iff_lt_add, show (n:ℚ)/4 + 1 = ((n:ℚ) + 4)/4 from by ring,
      lt_div_iff₀ (by norm_num : (0:ℚ) < 4)]
    linarith
  · rw [div_le_iff₀ (by norm_num : (0:ℚ) < 4)]
    linarith

/-- C2: total pages is the ceiling of the filtered count over the page size,
and the pages, concatenated in order for `currentPage = 1, 2, ...`,
reproduce the filtered list exactly. -/
theorem pagination_partitions (filtered : List Product) :
    (getTotalPages filtered.length : Int) = ⌈(filtered.length : ℚ) / 4⌉ ∧
    ((List.range (getTotalPages filtered.length)).map
      (fun i : Nat => getPaginatedProducts filtered ((i : Int) + 1))).flatten = filtered := by
  refine ⟨getTotalPages_eq_ceil _, ?_⟩
  rw [List.map_congr_left (fun i _ => getPaginatedProducts_eq_drop_take filtered i)]
  exact chunkFlatten filtered.length filtered (le_refl _)

/-! ## Claim C3: `paginationManager.calculatePageRange` -/

/-- `paginationManager.calculatePageRange(totalPages)` with the page it reads
from `state.currentPage` passed explicitly.  `half` is
`Math.floor(MAX_VISIBLE_PAGES / 2)`; the returned pair is `{start, end}`. -/
def calculatePageRange (currentPage totalPages : Int) : Int × Int :=
  if totalPages ≤ MAX_VISIBLE_PAGES then (1, totalPages)
  else
    let half := MAX_VISIBLE_PAGES / 2
    let start := max 1 (currentPage - half)
    let stop := min totalPages (start + MAX_VISIBLE_PAGES - 1)
    let start := if stop - start < MAX_VISIBLE_PAGES - 1
      then max 1 (stop - MAX_VISIBLE_PAGES + 1) else start
    (start, stop)

/-- C3: for `1 ≤ currentPage ≤ totalPages` the visible page window is within
`[1, totalPages]` and contains the current page; all pages are shown when
`totalPages ≤ 5`; the window spans exactly five pages when `totalPages ≥ 5`;
and it is centered on the current page when neither boundary clamps it. -/
theorem calculatePageRange_spec (currentPage totalPages : Int)
    (h1 : 1 ≤ currentPage) (h2 : currentPage ≤ totalPages) :
    1 ≤ (calculatePageRange currentPage totalPages).1 ∧
    (calculatePageRange currentPage totalPages).1 ≤ currentPage ∧
    currentPage ≤ (calculatePageRange currentPage totalPages).2 ∧
    (calculatePageRange currentPage totalPages).2 ≤ totalPages ∧
    (totalPages ≤ 5 →
      (calculatePageRange currentPage totalPages).1 = 1 ∧
      (calculatePageRange currentPage totalPages).2 = totalPages) ∧
    (5 ≤ totalPages →
      (calculatePageRange currentPage totalPages).2
        - (calculatePageRange currentPage totalPages).1 + 1 = 5) ∧
    (5 < totalPages → 3 ≤ currentPage → currentPage + 2 ≤ totalPages →
      (calculatePageRange currentPage totalPages).1 = currentPage - 2 ∧
      (calculatePageRange currentPage totalPages).2 = currentPage + 2) := by
  have hhalf : MAX_VISIBLE_PAGES / 2 = 2 := by decide
  have h5 : MAX_VISIBLE_PAGES = 5 := rfl
  simp only [calculatePageRange, hhalf, h5]
  split_ifs <;> dsimp only <;> omega

/-- Witness for C3 at `currentPage = 6`, `totalPages = 7`. -/
theorem calculatePageRange_spec_witness :
    1 ≤ (calculatePageRange 6 7).1 ∧
    (calculatePageRange 6 7).1 ≤ 6 ∧
    6 ≤ (calculatePageRange 6 7).2 ∧
    (calculatePageRange 6 7).2 ≤ 7 ∧
    ((7:Int) ≤ 5 →
      (calculatePageRange 6 7).1 = 1 ∧ (calculatePageRange 6 7).2 = 7) ∧
    ((5:Int) ≤ 7 →
      (calculatePageRange 6 7).2 - (calculatePageRange 6 7).1 + 1 = 5) ∧
    ((5:Int) < 7 → (3:Int) ≤ 6 → (6:Int) + 2 ≤ 7 →
      (calculatePageRange 6 7).1 = 6 - 2 ∧
      (calculatePageRange 6 7).2 = 6 + 2) :=
  calculatePageRange_spec 6 7 (by decide) (by decide)

/-! ## Claim C4: the shopper page as a transition system -/

/-- The state driving shopper-page pagination: the search input's value, the
sold-out checkbox, and `state.currentPage`. -/
structure UIState where
  keyword : String
  showSoldOut : Bool
  currentPage : Int
deriving Repr, DecidableEq

/-- The filtered count `productView.updateView` computes for a state
(the search input is trimmed before filtering). -/
def filteredCount (catalog : List Product) (st : UIState) : Nat :=
  (getFilteredProducts catalog (jsTrim st.keyword) st.showSoldOut).length

/-- The total page count `paginationManager.render` computes for a state. -/
def stateTotalPages (catalog : List Product) (st : UIState) : Nat :=
  getTotalPages (filteredCount catalog st)

/-- `elements.prevBtn.disabled` as set by `paginationManager.render`:
`state.currentPage === 1`. -/
def prevDisabled (st : UIState) : Bool :=
  st.currentPage == 1

/-- `elements.nextBtn.disabled` as set by `paginationManager.render`:
`state.currentPage === totalPages || totalPages === 0`. -/
def nextDisabled (catalog : List Product) (st : UIState) : Bool :=
  (st.currentPage == (stateTotalPages catalog st : Int)) ||
    (stateTotalPages catalog st == 0)

/-- One UI event on the shopper page, as wired by `setupEventListeners` and
`paginationManager.render`: editing the search input or toggling the
sold-out checkbox resets the page to 1; the prev/next buttons, when not
disabled, decrement/increment the page; a page-number button exists for each
page `i` of the rendered window and jumps to it. -/
inductive UIStep (catalog : List Product) : UIState → UIState → Prop
  | search (st : UIState) (k : String) :
      UIStep catalog st ⟨k, st.showSoldOut, 1⟩
  | toggleSoldOut (st : UIState) (s : Bool) :
      UIStep catalog st ⟨st.keyword, s, 1⟩
  | prevPage (st : UIState) :
      prevDisabled st = false →
      UIStep catalog st ⟨st.keyword, st.showSoldOut, st.currentPage - 1⟩
  | nextPage (st : UIState) :
      nextDisabled catalog st = false →
      UIStep catalog st ⟨st.keyword, st.showSoldOut, st.currentPage + 1⟩
  | pageBtn (st : UIState) (i : Int) :
      (calculatePageRange st.currentPage (stateTotalPages catalog st : Int)).1 ≤ i →
      i ≤ (calculatePageRange st.currentPage (stateTotalPages catalog st : Int)).2 →
      UIStep catalog st ⟨st.keyword, st.showSoldOut, i⟩

/-- States reachable from the state `init` sets up: empty search box,
unchecked sold-out box, `currentPage = 1`. -/
inductive UIReachable (catalog : List Product) : UIState → Prop
  | start : UIReachable catalog ⟨"", false, 1⟩
  | step {s t : UIState} : UIReachable catalog s → UIStep catalog s t →
      UIReachable catalog t

/-- A page number drawn from the rendered window lies in `[1, totalPages]`. -/
lemma calculatePageRange_mem_bounds (cp tp i : Int)
    (h1 : (calculatePageRange cp tp).1 ≤ i)
    (h2 : i ≤ (calculatePageRange cp tp).2) :
    1 ≤ i ∧ i ≤ tp := by
  have hhalf : MAX_VISIBLE_PAGES / 2 = 2 := by decide
  have h5 : MAX_VISIBLE_PAGES = 5 := rfl
  simp only [calculatePageRange, hhalf, h5] at h1 h2
  split_ifs at h1 h2 <;> dsimp only at h1 h2 <;> omega

/-- The inductive invariant: the page is in range whenever there are pages,
and equals 1 when there are none. -/
def pageInvariant (catalog : List Product) (st : UIState) : Prop :=
  (1 ≤ stateTotalPages catalog st →
    1 ≤ st.currentPage ∧ st.currentPage ≤ (stateTotalPages catalog st : Int)) ∧
  (stateTotalPages catalog st = 0 → st.currentPage = 1)

lemma pageInvariant_step (catalog : List Product) {s t : UIState}
    (hs : pageInvariant catalog s) (hstep : UIStep catalog s t) :
    pageInvariant catalog t := by
  obtain ⟨hs1, hs2⟩ := hs
  cases hstep with
  | search k =>
    dsimp only [pageInvariant]
    omega
  | toggleSoldOut b =>
    dsimp only [pageInvariant]
    omega
  | prevPage h =>
    have hne : s.currentPage ≠ 1 := by simpa [prevDisabled] using h
    have htp : stateTotalPages catalog ⟨s.keyword, s.showSoldOut, s.currentPage - 1⟩
        = stateTotalPages catalog s := rfl
    dsimp only [pageInvariant]
    rw [htp]
    omega
  | nextPage h =>
    have hne : s.currentPage ≠ (stateTotalPages catalog s : Int) ∧
        stateTotalPages catalog s ≠ 0 := by
      simpa [nextDisabled] using h
    have htp : stateTotalPages catalog ⟨s.keyword, s.showSoldOut, s.currentPage + 1⟩
        = stateTotalPages catalog s := rfl
    dsimp only [pageInvariant]
    rw [htp]
    omega
  | pageBtn i hlo hhi =>
    have hb := calculatePageRange_mem_bounds _ _ _ hlo hhi
    have htp : stateTotalPages catalog ⟨s.keyword, s.showSoldOut, i⟩
        = stateTotalPages catalog s := rfl
    dsimp only [pageInvariant]
    rw [htp]
    omega

/-- C4: in every state reachable by the shopper page's UI events from the
initial state, the current page lies in `[1, totalPages]` whenever there is
at least one page; and when the filtered count is zero the total page count
is zero and both navigation buttons are disabled. -/
theorem reachable_page_invariant (catalog : List Product) (st : UIState)
    (h : UIReachable catalog st) :
    (1 ≤ stateTotalPages catalog st →
      1 ≤ st.currentPage ∧ st.currentPage ≤ (stateTotalPages catalog st : Int)) ∧
    (filteredCount catalog st = 0 →
      stateTotalPages catalog st = 0 ∧ prevDisabled st = true ∧
      nextDisabled catalog st = true) := by
  have hinv : pageInvariant catalog st := by
    induction h with
    | start =>
      dsimp only [pageInvariant]
      omega
    | step hr hstep ih => exact pageInvariant_step catalog ih hstep
  refine ⟨hinv.1, fun hc => ?_⟩
  have htp : stateTotalPages catalog st = 0 := by
    rw [stateTotalPages, hc]
    rfl
  refine ⟨htp, ?_, ?_⟩
  · have hcp : st.currentPage = 1 := hinv.2 htp
    simp [prevDisabled, hcp]
  · simp [nextDisabled, htp]

/-- Witness for C4: the initial state over the empty catalog. -/
theorem reachable_page_invariant_witness :
    (1 ≤ stateTotalPages [] ⟨"", false, 1⟩ →
      1 ≤ (UIState.mk "" false 1).currentPage ∧
      (UIState.mk "" false 1).currentPage ≤ (stateTotalPages [] ⟨"", false, 1⟩ : Int)) ∧
    (filteredCount [] ⟨"", false, 1⟩ = 0 →
      stateTotalPages [] ⟨"", false, 1⟩ = 0 ∧
      prevDisabled ⟨"", false, 1⟩ = true ∧
      nextDisabled [] ⟨"", false, 1⟩ = true) :=
  reachable_page_invariant [] ⟨"", false, 1⟩ UIReachable.start

/-! ## Cart logic: `productManager.toggleCartItem` -/

/-- The shopper page's mutable `state` object (DOM-independent fields). -/
structure ShopState where
  products : List Product
  cart : List Product
  currentPage : Int
  soldoutCount : Nat
  isLoading : Bool
  error : Option String
deriving Repr, DecidableEq

/-- `productManager.toggleCartItem(productId, isChecked)`: no-op when the id
is not in the catalog; when checking, push a copy of the product unless an
entry with that id is already in the cart; when unchecking, drop every cart
entry with that id. -/
def toggleCartItem (st : ShopState) (productId : String) (isChecked : Bool) :
    ShopState :=
  match st.products.find? (fun p => p.id == productId) with
  | none => st
  | some product =>
    if isChecked then
      if st.cart.any (fun item => item.id == productId) then st
      else { st with cart := st.cart ++ [product] }
    else
      { st with cart := st.cart.filter (fun item => item.id != productId) }

/-! ## Claim C6 -/

/-- Counterexample to C6 as stated: the claim quantifies over every starting
cart, but from a cart already holding two entries with the product's id,
toggling the product on twice leaves both entries in place, so the resulting
cart does not contain exactly one entry with that id. -/
theorem toggleCartItem_counterexample :
    ¬ (((toggleCartItem
          (toggleCartItem
            { products := [⟨"AP00001", "Anubias", "Anubias barteri", 5, true, "", 0⟩],
              cart := [⟨"AP00001", "Anubias", "Anubias barteri", 5, true, "", 0⟩,
                       ⟨"AP00001", "Anubias", "Anubias barteri", 5, true, "", 0⟩],
              currentPage := 1, soldoutCount := 0, isLoading := false,
              error := none }
            "AP00001" true)
          "AP00001" true).cart.countP
        (fun item => item.id == "AP00001")) = 1) := by
  decide

/-- C6 (amended): for a catalog product, toggling on twice from a cart with
at most one entry for its id — which every cart reachable by toggles from
the initial empty cart satisfies — yields exactly one cart entry with that
id, the second toggle being a no-op; toggling off leaves no entry with that
id from ANY cart, duplicates included; and each toggle preserves the
at-most-one-entry-per-id property of the whole cart. -/
theorem toggleCartItem_idempotent (st : ShopState) (pid : String)
    (hmem : ∃ p ∈ st.products, p.id = pid)
    (huniq : st.cart.countP (fun item => item.id == pid) ≤ 1) :
    ((toggleCartItem st pid true).cart.countP (fun item => item.id == pid) = 1 ∧
      toggleCartItem (toggleCartItem st pid true) pid true
        = toggleCartItem st pid true) ∧
    (∀ st' : ShopState, (∃ p ∈ st'.products, p.id = pid) →
      (toggleCartItem st' pid false).cart.countP
        (fun item => item.id == pid) = 0) ∧
    (∀ st' : ShopState, ∀ pid' : String, ∀ b : Bool,
      (∀ q : String, st'.cart.countP (fun item => item.id == q) ≤ 1) →
      (∀ q : String,
        (toggleCartItem st' pid' b).cart.countP (fun item => item.id == q) ≤ 1)) := by
  obtain ⟨p0, hp0mem, hp0id⟩ := hmem
  have hfind : (st.products.find? (fun p => p.id == pid)).isSome = true := by
    rw [List.find?_isSome]
    exact ⟨p0, hp0mem, by simp [hp0id]⟩
  obtain ⟨prod, hprod⟩ := Option.isSome_iff_exists.mp hfind
  have hprodid : (prod.id == pid) = true := by
    have h := List.find?_some hprod
    simpa using h
  refine ⟨?_, ?_, ?_⟩
  · rcases Bool.eq_false_or_eq_true
      (st.cart.any (fun item => item.id == pid)) with hany | hany
    · have h1 : toggleCartItem st pid true = st := by
        simp [toggleCartItem, hprod, hany]
      rw [h1]
      have hpos : 0 < st.cart.countP (fun item => item.id == pid) :=
        List.countP_pos_iff.mpr (List.any_eq_true.mp hany)
      exact ⟨by omega, h1⟩
    · have h1 : toggleCartItem st pid true = { st with cart := st.cart ++ [prod] } := by
        simp [toggleCartItem, hprod, hany]
      have hcount0 : st.cart.countP (fun item => item.id == pid) = 0 := by
        rw [List.countP_eq_zero]
        intro a ha hcontra
        have : st.cart.any (fun item => item.id == pid) = true :=
          List.any_eq_true.mpr ⟨a, ha, hcontra⟩
        rw [this] at hany
        cases hany
      have hcount1 : (toggleCartItem st pid true).cart.countP
          (fun item => item.id == pid) = 1 := by
        rw [h1]
        dsimp only
        rw [List.countP_append, hcount0, List.countP_cons]
        simp [hprodid]
      refine ⟨hcount1, ?_⟩
      have hprods : (toggleCartItem st pid true).products = st.products := by
        rw [h1]
      have hany1 : (toggleCartItem st pid true).cart.any
          (fun item => item.id == pid) = true := by
        rw [List.any_eq_true, h1]
        dsimp only
        exact ⟨prod, List.mem_append_right _ (List.mem_singleton.mpr rfl), hprodid⟩
      conv_lhs => rw [toggleCartItem, hprods, hprod]
      simp [hany1]
  · intro st1 hmem1
    obtain ⟨p1, hp1mem, hp1id⟩ := hmem1
    have hfind1 : (st1.products.find? (fun p => p.id == pid)).isSome = true := by
      rw [List.find?_isSome]
      exact ⟨p1, hp1mem, by simp [hp1id]⟩
    obtain ⟨prod1, hprod1⟩ := Option.isSome_iff_exists.mp hfind1
    simp only [toggleCartItem, hprod1]
    simp only [Bool.false_eq_true, if_false]
    rw [List.countP_filter]
    simp [bne]
  · intro st' pid' b huniq' q
    rcases hfind' : st'.products.find? (fun p => p.id == pid') with _ | prod'
    · simp only [toggleCartItem, hfind']
      exact huniq' q
    · have hpid' : (prod'.id == pid') = true := by
        have h := List.find?_some hfind'
        simpa using h
      cases b
      · simp only [toggleCartItem, hfind', Bool.false_eq_true, if_false]
        exact le_trans ((List.filter_sublist _).countP_le _) (huniq' q)
      · rcases Bool.eq_false_or_eq_true
          (st'.cart.any (fun item => item.id == pid')) with hany | hany
        · simp only [toggleCartItem, hfind', if_true, hany]
          exact huniq' q
        · simp only [toggleCartItem, hfind', if_true, hany, Bool.false_eq_true,
            if_false]
          rw [List.countP_append, List.countP_cons, List.countP_nil]
          by_cases hq : (prod'.id == q) = true
          · have hqeq : pid' = q := by
              rw [beq_iff_eq] at hpid' hq
              rw [← hpid', hq]
            have hc0 : st'.cart.countP (fun item => item.id == q) = 0 := by
              rw [List.countP_eq_zero]
              intro a ha hcontra
              have : st'.cart.any (fun item => item.id == pid') = true := by
                rw [List.any_eq_true]
                exact ⟨a, ha, by rw [hqeq]; exact hcontra⟩
              rw [this] at hany
              cases hany
            rw [hc0]
            simp [hq]
          · have hq' : (prod'.id == q) = false := by simpa using hq
            rw [hq']
            simpa using huniq' q

/-- Witness for the amended C6: a one-product catalog and an empty cart. -/
theorem toggleCartItem_idempotent_witness :
    ((toggleCartItem
        { products := [⟨"AP00001", "Anubias", "Anubias barteri", 5, true, "", 0⟩],
          cart := [], currentPage := 1, soldoutCount := 0, isLoading := false,
          error := none }
        "AP00001" true).cart.countP (fun item => item.id == "AP00001") = 1 ∧
      toggleCartItem (toggleCartItem
        { products := [⟨"AP00001", "Anubias", "Anubias barteri", 5, true, "", 0⟩],
          cart := [], currentPage := 1, soldoutCount := 0, isLoading := false,
          error := none }
        "AP00001" true) "AP00001" true
        = toggleCartItem
        { products := [⟨"AP00001", "Anubias", "Anubias barteri", 5, true, "", 0⟩],
          cart := [], currentPage := 1, soldoutCount := 0, isLoading := false,
          error := none }
        "AP00001" true) ∧
    (∀ st' : ShopState, (∃ p ∈ st'.products, p.id = "AP00001") →
      (toggleCartItem st' "AP00001" false).cart.countP
        (fun item => item.id == "AP00001") = 0) ∧
    (∀ st' : ShopState, ∀ pid' : String, ∀ b : Bool,
      (∀ q : String, st'.cart.countP (fun item => item.id == q) ≤ 1) →
      (∀ q : String,
        (toggleCartItem st' pid' b).cart.countP (fun item => item.id == q) ≤ 1)) :=
  toggleCartItem_idempotent
    { products := [⟨"AP00001", "Anubias", "Anubias barteri", 5, true, "", 0⟩],
      cart := [], currentPage := 1, soldoutCount := 0, isLoading := false,
      error := none }
    "AP00001"
    ⟨⟨"AP00001", "Anubias", "Anubias barteri", 5, true, "", 0⟩, by simp, rfl⟩
    (by decide)

/-! ## Claim C9 -/

/-- C9: for a product id absent from the catalog, `toggleCartItem` is a
complete no-op: the returned state (cart, catalog and every other field) is
the input state, for either value of the checkbox. -/
theorem toggleCartItem_unknown_id_noop (st : ShopState) (pid : String)
    (b : Bool) (h : ∀ p ∈ st.products, p.id ≠ pid) :
    toggleCartItem st pid b = st := by
  have hfind : st.products.find? (fun p => p.id == pid) = none := by
    rw [List.find?_eq_none]
    intro p hp
    simp [h p hp]
  rw [toggleCartItem, hfind]

/-- Witness for C9: toggling an id that is not in the catalog. -/
theorem toggleCartItem_unknown_id_noop_witness :
    (∀ p : Product,
      p ∈ [(⟨"AP00001", "Anubias", "Anubias barteri", 5, true, "", 0⟩ : Product)] →
      p.id ≠ "AP99999") ∧
    toggleCartItem
      { products := [⟨"AP00001", "Anubias", "Anubias barteri", 5, true, "", 0⟩],
        cart := [], currentPage := 1, soldoutCount := 0, isLoading := false,
        error := none }
      "AP99999" true
      = { products := [⟨"AP00001", "Anubias", "Anubias barteri", 5, true, "", 0⟩],
          cart := [], currentPage := 1, soldoutCount := 0, isLoading := false,
          error := none } :=
  ⟨by decide, toggleCartItem_unknown_id_noop _ "AP99999" true (by decide)⟩

/-! ## Admin page model (the admin script extending the shopper logic) -/

/-- The admin page's `state` object.  `editingProduct` holds, in place of the
source's object reference into `state.products`, the index of the record
under edit; `deleteTarget` holds the record pending deletion;
`convertedImages` keeps the stored filenames (the re-encoded image blobs
carry no information any claim depends on). -/
structure AdminState where
  products : List Product
  cart : List Product
  currentPage : Int
  soldoutCount : Nat
  isLoading : Bool
  error : Option String
  editedProducts : List String
  convertedImages : List String
  editingProduct : Option Nat
  deleteTarget : Option Product
deriving Repr, DecidableEq

/-- `getNextId()`: parse the numeric suffix (`p.id.slice(2)`) of every
catalog id, sort descending, and return `"AP"` + (top + 1, or 1 on an empty
catalog) zero-padded to five digits.  A suffix with no leading digit makes
`parseInt` return `NaN`, on which the subsequent sort and arithmetic have no
meaningful pure counterpart; the model returns `none` for that case. -/
def getNextId (products : List Product) : Option String :=
  (products.mapM (fun p => jsParseIntNat (jsSliceFrom p.id 2))).map fun ids =>
    let sorted := ids.mergeSort (fun a b => decide (b ≤ a))
    let next := match sorted.head? with
      | some top => top + 1
      | none => 1
    "AP" ++ padStart (Nat.repr next) 5 '0'

/-! ## Claim C5 -/

lemma le_foldr_max (l : List Nat) (x : Nat) (hx : x ∈ l) :
    x ≤ l.foldr max 0 := by
  induction l with
  | nil => cases hx
  | cons a t ih =>
    rcases List.mem_cons.mp hx with rfl | hx'
    · exact le_max_left _ _
    · exact le_trans (ih hx') (le_max_right _ _)

lemma foldr_max_mem (l : List Nat) :
    l.foldr max 0 ∈ l ∨ l.foldr max 0 = 0 := by
  induction l with
  | nil => exact Or.inr rfl
  | cons a t ih =>
    rcases le_total (t.foldr max 0) a with h | h
    · left
      rw [List.foldr_cons, max_eq_left h]
      exact List.mem_cons_self _ _
    · rw [List.foldr_cons, max_eq_right h]
      rcases ih with hmem | h0
      · exact Or.inl (List.mem_cons_of_mem _ hmem)
      · exact Or.inr h0

lemma mergeSort_desc_head?_eq (l : List Nat) (h : l ≠ []) :
    (l.mergeSort (fun a b => decide (b ≤ a))).head? = some (l.foldr max 0) := by
  have hperm : (l.mergeSort (fun a b => decide (b ≤ a))).Perm l :=
    List.mergeSort_perm l _
  have hsorted : List.Pairwise (fun a b => decide (b ≤ a) = true)
      (l.mergeSort (fun a b => decide (b ≤ a))) := by
    refine List.sorted_mergeSort ?_ ?_ l
    · intro a b c hab hbc
      simp only [decide_eq_true_eq] at hab hbc ⊢
      omega
    · intro a b
      simp only [Bool.or_eq_true, decide_eq_true_eq]
      omega
  rcases hm : l.mergeSort (fun a b => decide (b ≤ a)) with _ | ⟨a, t⟩
  · rw [hm] at hperm
    exact absurd hperm.symm.eq_nil h
  · rw [hm] at hperm hsorted
    have hamem : a ∈ l := hperm.mem_iff.mp (List.mem_cons_self _ _)
    have hbound : ∀ x ∈ l, x ≤ a := by
      intro x hxl
      rcases List.mem_cons.mp (hperm.mem_iff.mpr hxl) with rfl | hxt
      · exact le_refl _
      · have := (List.pairwise_cons.mp hsorted).1 x hxt
        simpa using this
    have : l.foldr max 0 = a := by
      refine le_antisymm ?_ (le_foldr_max l a hamem)
      rcases foldr_max_mem l with hmem | h0
      · exact hbound _ hmem
      · omega
    rw [List.head?_cons, this]

lemma getNextId_formula (products : List Product) (ids : List Nat)
    (h : products.mapM (fun p => jsParseIntNat (jsSliceFrom p.id 2)) = some ids) :
    getNextId products
      = some ("AP" ++ padStart (Nat.repr (1 + ids.foldr max 0)) 5 '0') := by
  rw [getNextId, h]
  simp only [Option.map_some']
  congr 1
  rcases eq_or_ne ids [] with rfl | hne
  · simp [List.mergeSort_nil]
  · rw [mergeSort_desc_head?_eq ids hne]
    simp [Nat.add_comm]

/-- C5: `getNextId` returns `"AP"` followed by one plus the maximum numeric
suffix of the catalog ids, zero-padded to five digits; on ids
`{AP00001, AP00003}` it returns `AP00004` and on the empty catalog
`AP00001`. -/
theorem getNextId_spec (products : List Product) (ids : List Nat)
    (h : products.mapM (fun p => jsParseIntNat (jsSliceFrom p.id 2)) = some ids) :
    getNextId products
      = some ("AP" ++ padStart (Nat.repr (1 + ids.foldr max 0)) 5 '0') ∧
    getNextId [⟨"AP00001", "Anubias", "Anubias barteri", 5, true, "", 0⟩,
               ⟨"AP00003", "Bucephalandra", "Bucephalandra sp.", 8, true, "", 0⟩]
      = some "AP00004" ∧
    getNextId ([] : List Product) = some "AP00001" := by
  refine ⟨getNextId_formula products ids h, ?_, ?_⟩
  · rw [getNextId_formula _ [1, 3] (by decide)]
    decide
  · rw [getNextId_formula [] [] rfl]
    decide

/-- Witness for C5: the two-product catalog `{AP00001, AP00003}`. -/
theorem getNextId_spec_witness :
    ([⟨"AP00001", "Anubias", "Anubias barteri", 5, true, "", 0⟩,
      ⟨"AP00003", "Bucephalandra", "Bucephalandra sp.", 8, true, "", 0⟩]
        : List Product).mapM (fun p => jsParseIntNat (jsSliceFrom p.id 2))
      = some [1, 3] ∧
    (getNextId [⟨"AP00001", "Anubias", "Anubias barteri", 5, true, "", 0⟩,
                ⟨"AP00003", "Bucephalandra", "Bucephalandra sp.", 8, true, "", 0⟩]
      = some ("AP" ++ padStart (Nat.repr (1 + ([1, 3] : List Nat).foldr max 0)) 5 '0') ∧
    getNextId [⟨"AP00001", "Anubias", "Anubias barteri", 5, true, "", 0⟩,
               ⟨"AP00003", "Bucephalandra", "Bucephalandra sp.", 8, true, "", 0⟩]
      = some "AP00004" ∧
    getNextId ([] : List Product) = some "AP00001") :=
  ⟨by decide,
   getNextId_spec [⟨"AP00001", "Anubias", "Anubias barteri", 5, true, "", 0⟩,
                   ⟨"AP00003", "Bucephalandra", "Bucephalandra sp.", 8, true, "", 0⟩]
     [1, 3] (by decide)⟩

/-! ## Admin form submit, delete and initialization -/

/-- The values `productForm.onsubmit` reads from the modal's fields:
`productId.value`, `productName.value`, `productSpecies.value`,
`productPrice.value` (through `parseFloat`; modelled as the parsed numeric
value), `productAvailable.checked`, and the optionally selected image file
`productImage.files[0]` (represented by its name; its bytes feed only the
canvas re-encoder, which no claim depends on). -/
structure SubmitForm where
  idField : String
  name : String
  species : String
  price : Int
  available : Bool
  file : Option String
deriving Repr, DecidableEq

/-- The fixed external placeholder image URL in `createProductCard`. -/
def placeholderImageURL : String :=
  "https://images.unsplash.com/photo-1559496417-e7f25cb247f3?crop=entropy&cs=tinysrgb&fit=crop&fm=jpg&h=200&w=280&q=80"

/-- The image-source choice in `productView.createProductCard`: a truthy
(non-empty) `image` field selects the catalog path, otherwise the
placeholder. -/
def imageSrc (product : Product) : String :=
  if jsTruthy product.image then "data/images/" ++ product.image
  else placeholderImageURL

/-- `openEditModal(product)`: record which catalog entry is being edited
(the source stores the object reference; the model stores its index).  The
DOM field prefills are not part of the state model. -/
def openEditModal (st : AdminState) (idx : Nat) : AdminState :=
  { st with editingProduct := some idx }

/-- `productForm.onsubmit`.  `now` stands for `new Date().toISOString()` at
submit time.  Editing replaces the mutable fields of the record at the
stored index (the source's `Object.assign` on the referenced record); adding
prepends a fresh record.  A selected file is re-encoded under the name
`${id}_${safeName}.webp`, which is stored in `convertedImages` and becomes
the record's image reference; otherwise the previous image (or `""` when
adding) is kept. -/
def productFormSubmit (st : AdminState) (form : SubmitForm) (now : Nat) :
    AdminState :=
  let id := form.idField
  let name := jsTrim form.name
  let species := jsTrim form.species
  let price := form.price
  let available := form.available
  let image0 := match st.editingProduct with
    | some idx => (st.products.getD idx default).image
    | none => ""
  let image := match form.file with
    | some _ =>
      let safeName : String := ⟨collapseWhitespace (jsToLower name).data false⟩
      id ++ "_" ++ safeName ++ ".webp"
    | none => image0
  let convertedImages := match form.file with
    | some _ => image :: st.convertedImages
    | none => st.convertedImages
  match st.editingProduct with
  | some idx =>
    let edited : Product :=
      { st.products.getD idx default with
        name := name, species := species, price := price,
        available := available, image := image }
    { st with
      products := st.products.set idx edited,
      convertedImages := convertedImages,
      editedProducts := st.editedProducts ++ [id] }
  | none =>
    let newProduct : Product :=
      { id := id, name := name, species := species, price := price,
        available := available, image := image, created_at := now }
    { st with
      products := newProduct :: st.products,
      convertedImages := convertedImages,
      editedProducts := st.editedProducts ++ [id] }

/-- The `confirmDelete.onclick` handler: drop every record whose id equals
the delete target's and log the id.  The handler is reachable only after
`openDeleteModal` set a target; with none set it would fault on
`state.deleteTarget.id`, modelled as leaving the state unchanged. -/
def confirmDeleteClick (st : AdminState) : AdminState :=
  match st.deleteTarget with
  | none => st
  | some target =>
    { st with
      products := st.products.filter (fun p => p.id != target.id),
      editedProducts := st.editedProducts ++ [target.id] }

/-- `productManager.initialize` after a successful fetch: sort the fetched
records by descending creation timestamp into `state.products` and count
the unavailable ones into `state.soldoutCount`. -/
def initializeCatalog (st : AdminState) (fetched : List Product) : AdminState :=
  let sorted := fetched.mergeSort (fun a b => decide (b.created_at ≤ a.created_at))
  { st with
    products := sorted,
    soldoutCount := (sorted.filter (fun p => !p.available)).length }

/-- The denominator of `updateFilterInfo`'s "Showing X of Y" message:
`state.products.length - (showSoldOut ? 0 : state.soldoutCount)`. -/
def filterInfoTotal (st : AdminState) (showSoldOut : Bool) : Int :=
  (st.products.length : Int) - (if showSoldOut then 0 else (st.soldoutCount : Int))

/-! ## Claim C7 -/

lemma getD_set_self {α : Type _} [Inhabited α] (l : List α) (i : Nat) (a : α)
    (h : i < l.length) : (l.set i a).getD i default = a := by
  rw [List.getD_eq_getElem?_getD, List.getElem?_set, if_pos rfl, if_pos h]
  rfl

lemma getD_set_ne {α : Type _} [Inhabited α] (l : List α) (i j : Nat) (a : α)
    (h : i ≠ j) : (l.set i a).getD j default = l.getD j default := by
  rw [List.getD_eq_getElem?_getD, List.getElem?_set, if_neg h,
    ← List.getD_eq_getElem?_getD]

/-- C7: submitting the edit form rewrites only the mutable fields of the
record under edit — its `name`, `species`, `price` and `available` take the
form's values — while its `id` and `created_at` are unchanged, every other
catalog record is unchanged, and the catalog keeps its length. -/
theorem productFormSubmit_edit_frame (st : AdminState) (form : SubmitForm)
    (now : Nat) (idx : Nat) (he : st.editingProduct = some idx)
    (hlt : idx < st.products.length) :
    ((productFormSubmit st form now).products.getD idx default).id
      = (st.products.getD idx default).id ∧
    ((productFormSubmit st form now).products.getD idx default).created_at
      = (st.products.getD idx default).created_at ∧
    ((productFormSubmit st form now).products.getD idx default).name
      = jsTrim form.name ∧
    ((productFormSubmit st form now).products.getD idx default).species
      = jsTrim form.species ∧
    ((productFormSubmit st form now).products.getD idx default).price
      = form.price ∧
    ((productFormSubmit st form now).products.getD idx default).available
      = form.available ∧
    (∀ j : Nat, j ≠ idx →
      (productFormSubmit st form now).products.getD j default
        = st.products.getD j default) ∧
    (productFormSubmit st form now).products.length = st.products.length := by
  simp only [productFormSubmit, he]
  refine ⟨?_, ?_, ?_, ?_, ?_, ?_, fun j hj => ?_, ?_⟩
  · rw [getD_set_self _ _ _ hlt]
  · rw [getD_set_self _ _ _ hlt]
  · rw [getD_set_self _ _ _ hlt]
  · rw [getD_set_self _ _ _ hlt]
  · rw [getD_set_self _ _ _ hlt]
  · rw [getD_set_self _ _ _ hlt]
  · exact getD_set_ne _ _ _ _ (fun hc => hj hc.symm)
  · exact List.length_set _ _ _

/-- A one-product catalog state with that product open for editing. -/
def sampleEditState : AdminState :=
  { products := [⟨"AP00001", "Anubias", "Anubias barteri", 5, true, "", 0⟩],
    cart := [], currentPage := 1, soldoutCount := 0, isLoading := false,
    error := none, editedProducts := [], convertedImages := [],
    editingProduct := some 0, deleteTarget := none }

/-- A form submission flipping the sample product to unavailable, with no
image file selected. -/
def sampleEditForm : SubmitForm :=
  { idField := "AP00001", name := "Anubias", species := "Anubias barteri",
    price := 5, available := false, file := none }

/-- An admin state before any catalog is loaded (add-modal configuration). -/
def sampleAddState : AdminState :=
  { products := [], cart := [], currentPage := 1, soldoutCount := 0,
    isLoading := false, error := none, editedProducts := [],
    convertedImages := [], editingProduct := none, deleteTarget := none }

/-- Witness for C7: editing the single product of `sampleEditState`. -/
theorem productFormSubmit_edit_frame_witness :
    sampleEditState.editingProduct = some 0 ∧
    0 < sampleEditState.products.length ∧
    (((productFormSubmit sampleEditState sampleEditForm 0).products.getD 0 default).id
      = (sampleEditState.products.getD 0 default).id ∧
    ((productFormSubmit sampleEditState sampleEditForm 0).products.getD 0 default).created_at
      = (sampleEditState.products.getD 0 default).created_at ∧
    ((productFormSubmit sampleEditState sampleEditForm 0).products.getD 0 default).name
      = jsTrim sampleEditForm.name ∧
    ((productFormSubmit sampleEditState sampleEditForm 0).products.getD 0 default).species
      = jsTrim sampleEditForm.species ∧
    ((productFormSubmit sampleEditState sampleEditForm 0).products.getD 0 default).price
      = sampleEditForm.price ∧
    ((productFormSubmit sampleEditState sampleEditForm 0).products.getD 0 default).available
      = sampleEditForm.available ∧
    (∀ j : Nat, j ≠ 0 →
      (productFormSubmit sampleEditState sampleEditForm 0).products.getD j default
        = sampleEditState.products.getD j default) ∧
    (productFormSubmit sampleEditState sampleEditForm 0).products.length
      = sampleEditState.products.length) :=
  ⟨rfl, by decide,
    productFormSubmit_edit_frame sampleEditState sampleEditForm 0 0 rfl (by decide)⟩

/-! ## Claim C8 -/

/-- C8: submitting the add form with no file selected prepends a product
whose image field is the empty string, and `createProductCard` renders any
product with an empty image field from the fixed external placeholder URL
rather than a catalog image path. -/
theorem addForm_noImage_placeholder (st : AdminState) (form : SubmitForm)
    (now : Nat) (he : st.editingProduct = none) (hf : form.file = none) :
    ((productFormSubmit st form now).products.headD default).image = "" ∧
    (productFormSubmit st form now).products.length = st.products.length + 1 ∧
    (∀ p : Product, p.image = "" → imageSrc p = placeholderImageURL) := by
  refine ⟨?_, ?_, fun p hp => ?_⟩
  · simp [productFormSubmit, he, hf]
  · simp [productFormSubmit, he, hf]
  · simp [imageSrc, jsTruthy, hp]

/-- Witness for C8: adding to the empty catalog with no file selected. -/
theorem addForm_noImage_placeholder_witness :
    sampleAddState.editingProduct = none ∧ sampleEditForm.file = none ∧
    (((productFormSubmit sampleAddState sampleEditForm 0).products.headD default).image
      = "" ∧
    (productFormSubmit sampleAddState sampleEditForm 0).products.length
      = sampleAddState.products.length + 1 ∧
    (∀ p : Product, p.image = "" → imageSrc p = placeholderImageURL)) :=
  ⟨rfl, rfl, addForm_noImage_placeholder sampleAddState sampleEditForm 0 rfl rfl⟩

/-! ## Claim C10 -/

/-- C10: `state.soldoutCount` is written only during initialization, as the
number of unavailable records in the fetched catalog; the form-submit
handler (add or edit, including one flipping `available`) and the delete
handler preserve it.  Consequently the "Showing X of Y" denominator can
disagree with the count of currently visible items after an admin mutation:
loading one available product and editing it to unavailable leaves the
denominator at 1 while the visible count is 0. -/
theorem soldoutCount_stale (st0 : AdminState) (fetched : List Product) :
    (initializeCatalog st0 fetched).soldoutCount
      = (fetched.filter (fun p => !p.available)).length ∧
    (∀ (st : AdminState) (form : SubmitForm) (now : Nat),
      (productFormSubmit st form now).soldoutCount = st.soldoutCount) ∧
    (∀ st : AdminState, (confirmDeleteClick st).soldoutCount = st.soldoutCount) ∧
    filterInfoTotal
        (productFormSubmit
          (openEditModal (initializeCatalog sampleAddState
            [⟨"AP00001", "Anubias", "Anubias barteri", 5, true, "", 0⟩]) 0)
          sampleEditForm 0) false
      ≠ ((getFilteredProducts
          (productFormSubmit
            (openEditModal (initializeCatalog sampleAddState
              [⟨"AP00001", "Anubias", "Anubias barteri", 5, true, "", 0⟩]) 0)
            sampleEditForm 0).products "" false).length : Int) := by
  have hinit : openEditModal (initializeCatalog sampleAddState
      [⟨"AP00001", "Anubias", "Anubias barteri", 5, true, "", 0⟩]) 0
      = sampleEditState := by
    simp only [initializeCatalog, List.mergeSort_singleton, openEditModal]
    decide
  refine ⟨?_, fun st form now => ?_, fun st => ?_, ?_⟩
  · dsimp only [initializeCatalog]
    exact ((List.mergeSort_perm fetched _).filter _).length_eq
  · rcases hedit : st.editingProduct with _ | idx <;>
      simp [productFormSubmit, hedit]
  · rcases hdel : st.deleteTarget with _ | tgt <;>
      simp [confirmDeleteClick, hdel]
  · rw [hinit]
    decide
